import Mathlib

set_option maxRecDepth 4000

/-!
Shallow embedding of `src/collabstr_dual_scraper.py`.

Python strings are modelled as lists of characters (`Str`), Python ints as
`Int`.  Selenium page fetches are modelled as oracle functions mapping a URL
to the page content the driver would observe (`none` models a navigation /
lookup failure, i.e. an exception caught by the surrounding handler).
-/

abbrev Str := List Char

def str (s : String) : Str := s.data

/-- Python whitespace characters recognised by `str.strip` (ASCII fragment). -/
def isSpaceCh (c : Char) : Bool :=
  c = ' ' || c = '\t' || c = '\n' || c = '\r' || c = Char.ofNat 11 || c = Char.ofNat 12

/-- Python `s.strip()` (ASCII whitespace). -/
def pyStrip (s : Str) : Str :=
  ((s.dropWhile isSpaceCh).reverse.dropWhile isSpaceCh).reverse

/-- Python `s.lstrip("@")`. -/
def pyLstripAt (s : Str) : Str := s.dropWhile (fun c => c = '@')

/-- Python `s.rstrip("/")`. -/
def pyRstripSlash (s : Str) : Str := (s.reverse.dropWhile (fun c => c = '/')).reverse

/-- Python `s.lower()` (ASCII). -/
def toLowerStr (s : Str) : Str := s.map Char.toLower

/-- `leadsWith p s` is true when `p` is a prefix of `s`. -/
def leadsWith : Str → Str → Bool
  | [], _ => true
  | _ :: _, [] => false
  | a :: as, b :: bs => a = b && leadsWith as bs

/-- Python `p in s` substring test. -/
def hasSub (s p : Str) : Bool :=
  match s with
  | [] => leadsWith p []
  | _ :: rest => leadsWith p s || hasSub rest p

/-- Python `c in s` for a single character. -/
def hasCh (s : Str) (c : Char) : Bool := s.any (fun x => x = c)

/-- Python `s.split(c)` for a one-character separator: always non-empty,
`"".split(c) = [""]`. -/
def splitOnChar (c : Char) : Str → List Str
  | [] => [[]]
  | x :: xs =>
    if x = c then [] :: splitOnChar c xs
    else
      match splitOnChar c xs with
      | r :: rs => (x :: r) :: rs
      | [] => [[x]]

/-- Split a string at the first occurrence of `c`; the second component is
`none` when `c` does not occur. -/
def splitAtFirst (c : Char) : Str → Str × Option Str
  | [] => ([], none)
  | x :: xs =>
    if x = c then ([], some xs)
    else
      let r := splitAtFirst c xs
      (x :: r.1, r.2)

/-- Python `sep.join(parts)`. -/
def joinStr (sep : Str) : List Str → Str
  | [] => []
  | [x] => x
  | x :: xs => x ++ sep ++ joinStr sep xs

/-! ### The module-level email regex

`EMAIL_REGEX = re.compile(r"\b[A-Za-z0-9._%+-]+@[A-Za-z0-9.-]+\.[A-Za-z]{2,}\b")`

The matcher below reproduces Python's leftmost, greedy-with-backtracking
semantics for this particular pattern.  Because `@` is not a local-part
character, the greedy `+` on the local part never backtracks; the only real
backtracking is the choice of which `.` inside the maximal domain-character
run plays the role of the literal `\.`, tried right-to-left. -/

def isWordCh (c : Char) : Bool := c.isAlpha || c.isDigit || c = '_'

def isLocCh (c : Char) : Bool :=
  c.isAlpha || c.isDigit || c = '.' || c = '_' || c = '%' || c = '+' || c = '-'

def isDomCh (c : Char) : Bool := c.isAlpha || c.isDigit || c = '.' || c = '-'

/-- The trailing `\b` of the email regex: the next character (if any) must not
be a word character, given that the previous one is a letter. -/
def bdryOk : Str → Bool
  | [] => true
  | c :: _ => !(isWordCh c)

/-- Try the dot positions inside the maximal domain run `dom`, largest index
first (greedy `[A-Za-z0-9.-]+` backtracking).  The counter argument `j + 1` is
the candidate index of the literal `\.` inside `dom`. -/
def tryDots (loc dom r3 : Str) : Nat → Option Str
  | 0 => none
  | j + 1 =>
    (if dom.getD (j + 1) ' ' = '.' then
      let full := dom.drop (j + 2) ++ r3
      let ts := full.takeWhile Char.isAlpha
      let rest2 := full.dropWhile Char.isAlpha
      if 2 ≤ ts.length && bdryOk rest2 then
        some (loc ++ '@' :: (dom.take (j + 1) ++ '.' :: ts))
      else none
    else none).orElse (fun _ => tryDots loc dom r3 j)

/-- Match `EMAIL_REGEX` exactly at the start of `s`, where `prevWord` records
whether the character immediately before `s` is a word character (for the
leading `\b`).  Returns the matched substring (`group(0)`). -/
def emailAtPos (prevWord : Bool) (s : Str) : Option Str :=
  match s with
  | [] => none
  | c :: _ =>
    if isWordCh c = prevWord then none
    else
      let loc := s.takeWhile isLocCh
      let r1 := s.dropWhile isLocCh
      if loc.isEmpty then none
      else
        match r1 with
        | '@' :: r2 =>
          let dom := r2.takeWhile isDomCh
          let r3 := r2.dropWhile isDomCh
          tryDots loc dom r3 (dom.length - 1)
        | _ => none

def emailSearchGo : Bool → Str → Option Str
  | _, [] => none
  | prevW, c :: rest =>
    match emailAtPos prevW (c :: rest) with
    | some m => some m
    | none => emailSearchGo (isWordCh c) rest

/-- Python `EMAIL_REGEX.search(s)`: leftmost match, returning `group(0)`. -/
def emailSearch (s : Str) : Option Str := emailSearchGo false s

/-- Truthiness of Python `EMAIL_REGEX.match(s)`: a match anchored at the start
of the string (and only there). -/
def emailMatchStart (s : Str) : Bool := (emailAtPos false s).isSome

/-! ### `validate_email` (source lines 29-67) -/

/-- The `invalid_patterns` list; every pattern is a literal, so `re.search`
amounts to a substring test. -/
def badSubList : List Str :=
  [str "noreply", str "no-reply", str "donotreply",
   str "example.com", str "test@", str "admin@localhost"]

/-- The checks of `validate_email` applied after the
`email = email.strip().lower()` normalisation line. -/
def emailChecksNorm (e : Str) : Bool :=
  if emailMatchStart e = false then false
  else if badSubList.any (fun p => hasSub e p) then false
  else if e.length < 6 ∨ 254 < e.length then false
  else
    match splitOnChar '@' e with
    | [l, d] =>
      if 64 < l.length ∨ l.isEmpty then false
      else if 253 < d.length ∨ d.isEmpty ∨ hasCh d '.' = false then false
      else decide (2 ≤ ((splitOnChar '.' d).getLastD []).length)
    | _ => false

def validate_email (email : Str) : Bool :=
  if email.isEmpty then false else emailChecksNorm (toLowerStr (pyStrip email))

/-! ### `validate_heading_for_role` (source lines 322-337) -/

def validate_heading_for_role (heading_text : Str) (role_type : Str) : Bool :=
  if heading_text.isEmpty then false
  else
    let hl := toLowerStr heading_text
    if role_type = str "ugc" then
      hasSub hl (str "ugc") || hasSub hl (str "user generated content") ||
        hasSub hl (str "content creator")
    else if role_type = str "video_editor" then
      hasSub hl (str "video") || hasSub hl (str "editor") ||
        hasSub hl (str "video editor") || hasSub hl (str "video editing")
    else false

/-! ### Candidate records and listing cards -/

/-- The dict built by `extract_from_card`, extended by the keys `role_type`
(added in `parse_search_page`) and `instagram_handle` (added after profile
resolution).  Keys not yet assigned are modelled as the empty string. -/
structure Row where
  profile_url : Str
  username : Str
  name : Str
  email : Str
  heading : Str
  role_type : Str
  instagram_handle : Str
deriving DecidableEq

def emptyRow : Row := ⟨[], [], [], [], [], [], []⟩

/-- One rendered listing card, as seen through the Selenium lookups that
`extract_from_card` performs.  `linkHref = none` models the
`NoSuchElementException` raised when the card has no site-relative anchor
(or any other exception inside the outer `try`); `nameText = none` and
`headingText = none` model the caught per-field lookup failures. -/
structure Card where
  text : Str
  linkHref : Option Str
  nameText : Option Str
  headingText : Option Str
deriving DecidableEq

/-- Python `re.sub(r'\s*\d+\.\d+\s*$', '', raw_name)`: removes a trailing
rating-looking suffix, if present. -/
def stripRating (s : Str) : Str :=
  let r := s.reverse
  let r1 := r.dropWhile isSpaceCh
  let d1 := r1.takeWhile Char.isDigit
  let r2 := r1.dropWhile Char.isDigit
  if d1.isEmpty then s
  else
    match r2 with
    | '.' :: r3 =>
      let d2 := r3.takeWhile Char.isDigit
      let r4 := r3.dropWhile Char.isDigit
      if d2.isEmpty then s
      else (r4.dropWhile isSpaceCh).reverse
    | _ => s

/-- `extract_from_card` (source lines 339-377). -/
def extract_from_card (el : Card) : Row :=
  match el.linkHref with
  | none => emptyRow
  | some href =>
    let bad := hasSub href (str "login") || hasSub href (str "signup") ||
               hasSub href (str "about") || hasSub href (str "contact")
    let pu : Str × Str :=
      if !href.isEmpty && !bad then
        let u := (splitOnChar '/' (pyRstripSlash href)).getLastD []
        (href, if u.isEmpty then [] else '@' :: u)
      else ([], [])
    let nm := match el.nameText with
      | some t => pyStrip (stripRating (pyStrip t))
      | none => pu.2
    let hd := match el.headingText with
      | some t => pyStrip t
      | none => []
    let em := match emailSearch el.text with
      | some m => if validate_email m then m else []
      | none => []
    ⟨pu.1, pu.2, nm, em, hd, [], []⟩

/-! ### Profile resolution (`extract_instagram_from_profile`, lines 379-435) -/

/-- A Collabstr profile detail page, as observed by the resolver:
the optional `h1.listing-title, .header-title` element text, and the `href`
attributes of the page's anchors. -/
structure DetailPage where
  headingText : Option Str
  anchors : List Str
deriving DecidableEq

def igHandleCh (c : Char) : Bool := c.isAlpha || c.isDigit || c = '.' || c = '_'

/-- Python `re.search(r"instagram\.com/([a-zA-Z0-9._]+?)(?:/|\?|$)", href)`,
returning `group(1)`.  The lazy group together with the follow set `/`, `?`,
end-of-string means the handle is the maximal run of handle characters after
the literal `instagram.com/`, accepted only when followed by `/`, `?` or the
end of the string; otherwise the scan resumes at the next position. -/
def igSearch : Str → Option Str
  | [] => none
  | c :: rest =>
    if leadsWith (str "instagram.com/") (c :: rest) then
      let t := (c :: rest).drop 14
      let run := t.takeWhile igHandleCh
      let r2 := t.dropWhile igHandleCh
      if !run.isEmpty && (r2.isEmpty || r2.headD ' ' = '/' || r2.headD ' ' = '?') then
        some run
      else igSearch rest
    else igSearch rest

def invalidHandles : List Str :=
  [str "p", str "reel", str "reels", str "tv", str "stories", str "explore",
   str "accounts", str "direct"]

/-- The anchor loop of `extract_instagram_from_profile`: first acceptable
handle wins; the brand account and the reserved path keywords are skipped. -/
def scanAnchors : List Str → Option Str
  | [] => none
  | a :: rest =>
    match igSearch a with
    | some h =>
      if toLowerStr h = str "collabstr" then scanAnchors rest
      else if invalidHandles.contains (toLowerStr h) then scanAnchors rest
      else some h
    | none => scanAnchors rest

/-- `extract_instagram_from_profile` (source lines 379-435), over the detail
page the driver would render (`none` = navigation failure, caught by the
outer handler and turned into `("", False)`).

Control flow from the source: with an `expected_role`, a heading that is
found but fails `validate_heading_for_role` returns `("", False)`
immediately; a *missing* heading only sets `heading_valid = False` and the
anchor scan still runs, so the returned handle can be non-empty. -/
def extract_instagram_from_profile (page : Option DetailPage) (expected_role : Option Str) :
    Str × Bool :=
  match page with
  | none => ([], false)
  | some pg =>
    let check : Option Bool :=
      match expected_role with
      | none => some true
      | some role =>
        match pg.headingText with
        | some h => if validate_heading_for_role (pyStrip h) role then some true else none
        | none => some false
    match check with
    | none => ([], false)
    | some hv =>
      let igs := pg.anchors.filter (fun a => hasSub a (str "instagram.com"))
      match scanAnchors igs with
      | some h => (h, hv)
      | none => ([], hv)

/-! ### `parse_search_page` (source lines 437-479) -/

/-- The first loop of `parse_search_page`: per-card extraction, the coarse
role filter, the completeness filter and (for `video_editor`) the
cross-category dedup check.  Exactly the members of this list get a
detail-page fetch in the second loop. -/
def coarse_candidates (ugcSeen : List Str) (role_type : Str) (cards : List Card) :
    List Row :=
  cards.filterMap fun el =>
    let d := { extract_from_card el with role_type := role_type }
    if !d.heading.isEmpty && !validate_heading_for_role d.heading role_type then none
    else if !d.profile_url.isEmpty && !d.name.isEmpty then
      if role_type = str "video_editor" && ugcSeen.contains d.profile_url then none
      else some d
    else none

/-- The second loop of `parse_search_page`: resolve each surviving candidate's
detail page, drop it when the role is not confirmed, otherwise record the
Instagram handle. -/
def resolveRows (detail : Str → Option DetailPage) (role_type : Str) (l : List Row) :
    List Row :=
  l.filterMap fun d =>
    let r := extract_instagram_from_profile (detail d.profile_url) (some role_type)
    if r.2 then some { d with instagram_handle := r.1 } else none

/-- `parse_search_page` over the listing page the driver would render
(`none` = page-level navigation error, caught and turned into `[]`;
`find_cards` timeouts likewise surface as an empty card list). -/
def parse_search_page (ugcSeen : List Str) (detail : Str → Option DetailPage)
    (role_type : Str) (page : Option (List Card)) : List Row :=
  match page with
  | none => []
  | some cards => resolveRows detail role_type (coarse_candidates ugcSeen role_type cards)

/-! ### URL parsing (models `urllib.parse.urlparse` / `parse_qs` as used by
the source) -/

structure UrlParts where
  scheme : Str
  netloc : Str
  path : Str
  query : Str
  fragment : Str
deriving DecidableEq

def schemeChOk (c : Char) : Bool := c.isAlpha || c.isDigit || c = '+' || c = '-' || c = '.'

/-- Modelled after CPython `urllib.parse.urlsplit` (ASCII inputs, no
`;parameters` handling): optional scheme before the first `:`, `//netloc`
delimited by `/?#`, fragment split at the first `#`, query at the first `?`. -/
def urlparse (u : Str) : UrlParts :=
  let sr := splitAtFirst ':' u
  let su : Str × Str :=
    match sr.2 with
    | some after =>
      if !sr.1.isEmpty && (sr.1.headD ' ').isAlpha && sr.1.all schemeChOk then
        (toLowerStr sr.1, after)
      else ([], u)
    | none => ([], u)
  let notDelim : Char → Bool := fun c => !(c = '/' || c = '?' || c = '#')
  let nr : Str × Str :=
    if leadsWith (str "//") su.2 then
      let t := su.2.drop 2
      (t.takeWhile notDelim, t.dropWhile notDelim)
    else ([], su.2)
  let fr := splitAtFirst '#' nr.2
  let frag := match fr.2 with | some a => a | none => []
  let pq := splitAtFirst '?' fr.1
  let qu := match pq.2 with | some a => a | none => []
  ⟨su.1, nr.1, pq.1, qu, frag⟩

def hexDigitVal (c : Char) : Option Nat :=
  if c.isDigit then some (c.toNat - 48)
  else if 'a' ≤ c ∧ c ≤ 'f' then some (c.toNat - 87)
  else if 'A' ≤ c ∧ c ≤ 'F' then some (c.toNat - 55)
  else none

/-- Percent-decoding as in `urllib.parse.unquote`, restricted to single-byte
sequences: a `%XX` escape below 0x80 decodes to that character, a `%XX` at or
above 0x80 (an invalid UTF-8 single byte) decodes to U+FFFD, and a malformed
escape is kept verbatim. -/
def pctDecode : Str → Str
  | '%' :: a :: b :: rest =>
    match hexDigitVal a, hexDigitVal b with
    | some x, some y =>
      let v := 16 * x + y
      (if v < 128 then Char.ofNat v else Char.ofNat 0xFFFD) :: pctDecode rest
    | _, _ => '%' :: pctDecode (a :: b :: rest)
  | c :: rest => c :: pctDecode rest
  | [] => []

/-- `parse_qsl` value decoding: `+` to space, then percent-decoding. -/
def unq (s : Str) : Str := pctDecode (s.map (fun c => if c = '+' then ' ' else c))

/-- `urllib.parse.parse_qsl` with default arguments: split on `&`, skip empty
fields, fields without `=`, and fields with a blank value. -/
def parse_qsl (qs : Str) : List (Str × Str) :=
  (splitOnChar '&' qs).filterMap fun field =>
    if field.isEmpty then none
    else
      match splitAtFirst '=' field with
      | (_, none) => none
      | (n, some v) => if v.isEmpty then none else some (unq n, unq v)

/-- Insertion-ordered dict used by `parse_qs`: appending a value to an
existing key keeps the key's position. -/
def dictAppend (d : List (Str × List Str)) (k : Str) (v : Str) : List (Str × List Str) :=
  match d with
  | [] => [(k, [v])]
  | (k0, vs) :: rest =>
    if k0 = k then (k0, vs ++ [v]) :: rest else (k0, vs) :: dictAppend rest k v

/-- `urllib.parse.parse_qs` with default arguments. -/
def parse_qs (qs : Str) : List (Str × List Str) :=
  (parse_qsl qs).foldl (fun d kv => dictAppend d kv.1 kv.2) []

/-- Python dict lookup on the insertion-ordered association list. -/
def dictFind : List (Str × List Str) → Str → Option (List Str)
  | [], _ => none
  | (k0, vs) :: rest, k => if k0 = k then some vs else dictFind rest k

/-- Python dict assignment `q[k] = v`: replace in place, else append. -/
def dictSet (d : List (Str × List Str)) (k : Str) (v : List Str) : List (Str × List Str) :=
  match d with
  | [] => [(k, v)]
  | (k0, vs) :: rest =>
    if k0 = k then (k0, v) :: rest else (k0, vs) :: dictSet rest k v

/-! ### Python `int(str)` -/

def digitsWithUnderscores (u : Str) : Bool :=
  !u.isEmpty && (u.headD ' ').isDigit && (u.getLastD ' ').isDigit &&
    u.all (fun c => c.isDigit || c = '_') && !(hasSub u (str "__"))

def digitsVal (u : Str) : Nat :=
  u.foldl (fun acc c => if c.isDigit then 10 * acc + (c.toNat - 48) else acc) 0

/-- Python `int(s)` on a decoded query value: optional surrounding whitespace,
optional sign, decimal digits with optional single underscores between them.
`none` models the raised `ValueError`. -/
def pyIntOpt (s : Str) : Option Int :=
  let t := pyStrip s
  match t with
  | '+' :: r => if digitsWithUnderscores r then some (digitsVal r) else none
  | '-' :: r => if digitsWithUnderscores r then some (-(digitsVal r : Int)) else none
  | _ => if digitsWithUnderscores t then some (digitsVal t) else none

def intToStr (i : Int) : Str := (toString i).data

/-- Python `range(a, b)` over `Int`. -/
def intRange (a b : Int) : List Int :=
  (List.range (b - a).toNat).map (fun k : Nat => a + (k : Int))

/-! ### `rebuild_query` and `paginate_urls` (source lines 481-512) -/

/-- `rebuild_query` (source lines 501-512), for the single extra pair the
source passes (`{"page": i}`).  Note the result is re-serialised as
`scheme://netloc path ? qs` from the *decoded* parameters, dropping the
fragment. -/
def rebuild_query (parsed : UrlParts) (extraK : Str) (extraV : Int) : Str :=
  let q := dictSet (parse_qs parsed.query) extraK [intToStr extraV]
  let parts := q.flatMap (fun kv => kv.2.map (fun v => kv.1 ++ '=' :: v))
  parsed.scheme ++ str "://" ++ parsed.netloc ++ parsed.path ++ '?' :: joinStr (str "&") parts

/-- `paginate_urls` (source lines 481-499); `max_pages` is the instance's
page budget. -/
def paginate_urls (max_pages : Int) (first_url : Str) : List Str :=
  let parsed := urlparse first_url
  let q := parse_qs parsed.query
  match dictFind q (str "page") with
  | some vals =>
    let start := match pyIntOpt (vals.headD []) with
      | some n => n
      | none => 1
    first_url :: (intRange (start + 1) (start + max_pages)).map
      (fun i => rebuild_query parsed (str "page") i)
  | none =>
    first_url :: (intRange 2 (max_pages + 1)).map
      (fun i => first_url ++ (if parsed.query.isEmpty then ['?'] else ['&']) ++
        str "pg=" ++ intToStr i)

/-! ### `scrape_category` (source lines 514-539) and `run` (lines 541-552) -/

/-- Python `rows[:m]` (the truncation slice; `m` is an `Int` as in Python). -/
def pySliceTake (m : Int) (l : List Row) : List Row :=
  if m < 0 then l.take ((l.length : Int) + m).toNat else l.take m.toNat

/-- The page loop of `scrape_category`: stop when the accepted-row count has
reached the budget; after extending with a page's rows, truncate and stop on
overshoot. -/
def scrapeGo (site : Str → Option (List Card)) (detail : Str → Option DetailPage)
    (ugcSeen : List Str) (role_type : Str) (max_profiles : Int) :
    List Str → List Row → List Row
  | [], rows => rows
  | u :: us, rows =>
    if max_profiles ≤ (rows.length : Int) then rows
    else
      if max_profiles ≤
          ((rows ++ parse_search_page ugcSeen detail role_type (site u)).length : Int) then
        pySliceTake max_profiles (rows ++ parse_search_page ugcSeen detail role_type (site u))
      else
        scrapeGo site detail ugcSeen role_type max_profiles us
          (rows ++ parse_search_page ugcSeen detail role_type (site u))

def scrape_category (site : Str → Option (List Card)) (detail : Str → Option DetailPage)
    (ugcSeen : List Str) (max_pages : Int) (base_url : Str) (role_type : Str)
    (max_profiles : Int) : List Row :=
  scrapeGo site detail ugcSeen role_type max_profiles (paginate_urls max_pages base_url) []

def UGC_URL : Str := str "https://collabstr.com/influencers?c=ugc"
def VIDEO_URL : Str := str "https://collabstr.com/influencers?c=video"

structure RunResult where
  ugc_rows : List Row
  video_rows : List Row
  ugc_profile_urls : List Str
deriving DecidableEq

/-- `run` (source lines 541-552).  `self.ugc_profile_urls` is initialised to
the empty set in `__init__` and — the statement that would populate it after
the `ugc` category is commented out in the source — never written, so the
`video_editor` scrape runs with an empty dedup set. -/
def run (site : Str → Option (List Card)) (detail : Str → Option DetailPage)
    (max_pages max_profiles : Int) : RunResult :=
  let seen : List Str := []
  let ugc := scrape_category site detail seen max_pages UGC_URL (str "ugc") max_profiles
  let video := scrape_category site detail seen max_pages VIDEO_URL
    (str "video_editor") max_profiles
  ⟨ugc, video, seen⟩

/-! ### Enrichment (`fetch_instagram_email_selenium`, lines 554-585, and
`enrich_with_instagram_emails`, lines 587-605) -/

/-- `fetch_instagram_email_selenium` over a bio-page oracle mapping the
cleaned username to the rendered page source (`none` = navigation failure,
caught and turned into `""`). -/
def fetch_instagram_email_selenium (bio : Str → Option Str) (instagram_handle : Str) : Str :=
  if instagram_handle.isEmpty then []
  else
    match bio (pyStrip (pyLstripAt instagram_handle)) with
    | none => []
    | some src =>
      match emailSearch src with
      | some m => if validate_email m then m else []
      | none => []

/-- One iteration of the enrichment loop: the updated row, paired with the
list of handles passed to the Instagram resolver during that iteration. -/
def enrichRow (bio : Str → Option Str) (row : Row) : Row × List Str :=
  if row.email.isEmpty && !row.instagram_handle.isEmpty then
    (if !(fetch_instagram_email_selenium bio row.instagram_handle).isEmpty then
      { row with email := fetch_instagram_email_selenium bio row.instagram_handle }
    else row,
    [row.instagram_handle])
  else (row, [])

/-- `enrich_with_instagram_emails`: the source mutates `rows` in place; the
embedding returns the updated list together with the call log of handles
passed to the resolver. -/
def enrich_with_instagram_emails (bio : Str → Option Str) (rows : List Row) :
    List Row × List Str :=
  (rows.map (fun r => (enrichRow bio r).1), rows.flatMap (fun r => (enrichRow bio r).2))

/-! ### `save_csv` (source lines 607-636) -/

/-- The per-category export: select `name, email, profile_url, role_type`,
keep only rows with a non-empty email, preserving order. -/
def exportRows (rows : List Row) : List (Str × Str × Str × Str) :=
  (rows.filter (fun r => !r.email.isEmpty)).map
    (fun r => (r.name, r.email, r.profile_url, r.role_type))

/-- `save_csv` over the bio oracle: enriches each non-empty category, then
writes one file per non-empty category (`none` = no file written). -/
def save_csv (bio : Str → Option Str) (ugc_rows video_rows : List Row) :
    Option (List (Str × Str × Str × Str)) × Option (List (Str × Str × Str × Str)) :=
  if ugc_rows.isEmpty && video_rows.isEmpty then (none, none)
  else
    let u := if !ugc_rows.isEmpty then (enrich_with_instagram_emails bio ugc_rows).1
             else ugc_rows
    let v := if !video_rows.isEmpty then (enrich_with_instagram_emails bio video_rows).1
             else video_rows
    (if !ugc_rows.isEmpty then some (exportRows u) else none,
     if !video_rows.isEmpty then some (exportRows v) else none)

/-! ### Spec-side comparison definitions -/

/-- Modelled from the spec's words for comparison with `validate_email`: the
whole string matches the `local@domain.tld` shape — ASCII local part,
dot-separated domain with non-empty labels, final label at least 2 letters. -/
def emailShapeFull (s : Str) : Bool :=
  match splitOnChar '@' s with
  | [l, d] =>
    !l.isEmpty && l.all isLocCh &&
      (let labels := splitOnChar '.' d
       decide (2 ≤ labels.length) && labels.all (fun lb => !lb.isEmpty && lb.all isDomCh) &&
         (labels.getLastD []).all Char.isAlpha && decide (2 ≤ (labels.getLastD []).length))
  | _ => false

/-- An anchor `href` that would make the resolver's scan return a handle:
it contains `instagram.com`, its Instagram regex search succeeds, and the
handle is neither the brand account nor a reserved path keyword. -/
def qualifyingAnchor (a : Str) : Bool :=
  hasSub a (str "instagram.com") &&
    (match igSearch a with
     | some h => !(toLowerStr h = str "collabstr") && !(invalidHandles.contains (toLowerStr h))
     | none => false)

/-! ### Concrete fixtures used by witnesses and counterexamples -/

def aliceUrl : Str := str "https://collabstr.com/alice"

/-- A listing card whose heading validates for both categories. -/
def cardBoth : Card := ⟨[], some aliceUrl, some (str "Alice"), some (str "ugc video")⟩

/-- Listing site oracle serving the same card on the `ugc` and the
`video_editor` listing page. -/
def siteDup : Str → Option (List Card) := fun u =>
  if u = UGC_URL || u = VIDEO_URL then some [cardBoth] else some []

/-- Profile detail oracle: every profile has a heading valid for both
categories and no outbound anchors. -/
def detailDup : Str → Option DetailPage := fun _ => some ⟨some (str "ugc video"), []⟩

/-- A listing card with profile URL and name but no heading element. -/
def cardNoHeading : Card := ⟨[], some (str "https://collabstr.com/bob"), some (str "Bob"), none⟩

/-- A detail page with no heading element but a qualifying Instagram anchor. -/
def pageNoHeading : DetailPage := ⟨none, [str "https://instagram.com/bobby"]⟩

/-- A detail page whose heading fails the `ugc` role check. -/
def pageWrongRole : DetailPage := ⟨some (str "Fashion blogger"), [str "https://instagram.com/bobby"]⟩

/-! # Theorems -/

/-- C8: a listing card whose extraction fails yields the all-empty partial
record; a listing page whose navigation fails yields the empty page result;
a profile page whose navigation fails yields the empty resolution — in each
case the failure is absorbed locally and the surrounding computation
continues (all embedded functions are total). -/
theorem extraction_failure_recovery :
    (∀ t n h, extract_from_card ⟨t, none, n, h⟩ = emptyRow) ∧
    (∀ ugcSeen detail role_type, parse_search_page ugcSeen detail role_type none = []) ∧
    (∀ expected_role, extract_instagram_from_profile none expected_role = ([], false)) :=
  ⟨fun _ _ _ => rfl, fun _ _ _ => rfl, fun _ => rfl⟩

set_option maxHeartbeats 1000000 in
/-- C1 (violated by the source): `run` never inserts the accepted `ugc`
profile URLs into `ugc_profile_urls` — the assignment is commented out — so
the set is still empty when the `video_editor` category is scraped and a
profile URL accepted under `ugc` reappears in `video_rows`. -/
theorem run_ugc_url_reappears_in_video_rows :
    (run siteDup detailDup 1 5).ugc_rows.map (fun r => r.profile_url) = [aliceUrl] ∧
    (run siteDup detailDup 1 5).video_rows.map (fun r => r.profile_url) = [aliceUrl] ∧
    (run siteDup detailDup 1 5).ugc_profile_urls = [] := by
  refine ⟨?_, ?_, rfl⟩ <;> decide

set_option maxHeartbeats 1000000 in
/-- C2 counterexample: a `video_editor` listing card with a profile URL and a
name but an *empty* extracted heading is not dropped by the coarse filter —
it appears among the candidates handed to the detail-page fetch loop. -/
theorem coarse_filter_keeps_empty_heading :
    (extract_from_card cardNoHeading).heading = [] ∧
    (coarse_candidates [] (str "video_editor") [cardNoHeading]).map (fun r => r.profile_url) =
      [str "https://collabstr.com/bob"] := by
  exact ⟨by decide, by decide⟩

/-- C3 counterexample: with expected role `ugc`, a detail page with *no*
heading element but a qualifying Instagram anchor makes the resolver return
`("bobby", false)`, not the pair `("", false)` the claim requires for every
failed role re-check. -/
theorem resolve_missing_heading_returns_handle :
    extract_instagram_from_profile (some pageNoHeading) (some (str "ugc")) =
      (str "bobby", false) ∧ ¬ (str "bobby" = ([] : Str)) := by
  exact ⟨by decide, by decide⟩

/-- C4 counterexample: `validate_email` accepts `"a@b.co x"` although the
trimmed, lowercased string does not match the `local@domain.tld` shape in its
entirety (the regex is only anchored at the start). -/
theorem validate_email_accepts_partial_match :
    validate_email (str "a@b.co x") = true ∧
    emailShapeFull (toLowerStr (pyStrip (str "a@b.co x"))) = false := by
  exact ⟨by decide, by decide⟩

/-! ## Helper lemmas -/

theorem scanAnchors_cons (a : Str) (l : List Str) :
    scanAnchors (a :: l) =
      match igSearch a with
      | some h =>
        if toLowerStr h = str "collabstr" then scanAnchors l
        else if invalidHandles.contains (toLowerStr h) then scanAnchors l
        else some h
      | none => scanAnchors l := rfl

theorem scanAnchors_all_bad (l : List Str)
    (hall : ∀ a ∈ l, qualifyingAnchor a = false) :
    scanAnchors (l.filter (fun a => hasSub a (str "instagram.com"))) = none := by
  induction l with
  | nil => rfl
  | cons a rest ih =>
    have ha := hall a (by simp)
    have hrest : ∀ b ∈ rest, qualifyingAnchor b = false :=
      fun b hb => hall b (by simp [hb])
    by_cases hsub : hasSub a (str "instagram.com") = true
    · rw [List.filter_cons_of_pos (by simpa using hsub), scanAnchors_cons]
      cases hig : igSearch a with
      | none => exact ih hrest
      | some hnd =>
        simp only [qualifyingAnchor, hsub, hig, Bool.true_and] at ha
        by_cases hc : toLowerStr hnd = str "collabstr"
        · simpa [hc] using ih hrest
        · have hi : invalidHandles.contains (toLowerStr hnd) = true := by
            cases hcontains : invalidHandles.contains (toLowerStr hnd)
            · rw [hcontains] at ha
              simp at ha
              exact absurd ha hc
            · rfl
          have hi2 : toLowerStr hnd ∈ invalidHandles := by simpa using hi
          simpa [hc, hi2] using ih hrest
    · rw [List.filter_cons_of_neg (by simpa using hsub)]
      exact ih hrest

/-- C3 (amended): with an expected role, a detail page whose heading is found
but fails the role re-check makes the resolver return exactly `("", false)`;
a detail page with *no* heading element gets `role_confirmed = false` but the
anchor scan still runs, so only the second component is guaranteed; and when
the role re-check passes but no qualifying Instagram anchor exists, the
resolver returns an empty handle with `role_confirmed = true`. -/
theorem resolve_detail_role_and_anchor_semantics (pg : DetailPage) (role : Str) :
    (∀ h, pg.headingText = some h →
        validate_heading_for_role (pyStrip h) role = false →
        extract_instagram_from_profile (some pg) (some role) = ([], false)) ∧
    (pg.headingText = none →
        (extract_instagram_from_profile (some pg) (some role)).2 = false) ∧
    (∀ h, pg.headingText = some h →
        validate_heading_for_role (pyStrip h) role = true →
        (∀ a ∈ pg.anchors, qualifyingAnchor a = false) →
        extract_instagram_from_profile (some pg) (some role) = ([], true)) := by
  refine ⟨?_, ?_, ?_⟩
  · intro h hh hv
    simp [extract_instagram_from_profile, hh, hv]
  · intro hh
    simp only [extract_instagram_from_profile, hh]
    cases hsc : scanAnchors (pg.anchors.filter (fun a => hasSub a (str "instagram.com"))) <;>
      simp [hsc]
  · intro h hh hv hall
    simp [extract_instagram_from_profile, hh, hv, scanAnchors_all_bad pg.anchors hall]

/-- Witness for `resolve_detail_role_and_anchor_semantics` at a concrete
detail page whose heading fails the `ugc` re-check. -/
theorem resolve_detail_role_and_anchor_semantics_witness :
    extract_instagram_from_profile (some pageWrongRole) (some (str "ugc")) = ([], false) :=
  (resolve_detail_role_and_anchor_semantics pageWrongRole (str "ugc")).1
    (str "Fashion blogger") rfl (by decide)

/-- C2 (amended): the coarse filter drops a candidate only when its extracted
heading is non-empty and fails `RoleValidator`; a card whose extracted
heading is the empty string is *not* dropped by the coarse filter, so every
candidate handed to the detail-fetch loop has an empty or role-valid heading
together with a non-empty profile URL and name. -/
theorem coarse_candidates_heading_policy (ugcSeen : List Str) (role_type : Str)
    (cards : List Card) :
    ∀ d ∈ coarse_candidates ugcSeen role_type cards,
      (d.heading = [] ∨ validate_heading_for_role d.heading role_type = true) ∧
      d.profile_url ≠ [] ∧ d.name ≠ [] := by
  intro d hd
  simp only [coarse_candidates, List.mem_filterMap] at hd
  obtain ⟨el, -, h⟩ := hd
  split at h
  · simp at h
  next h1 =>
    split at h
    next h2 =>
      split at h
      · simp at h
      next h3 =>
        injection h with h4
        subst h4
        have h1a : ¬(extract_from_card el).heading = [] →
            validate_heading_for_role (extract_from_card el).heading role_type = true := by
          simpa using h1
        have h2a : ¬(extract_from_card el).profile_url = [] ∧
            ¬(extract_from_card el).name = [] := by
          simpa using h2
        refine ⟨?_, h2a.1, h2a.2⟩
        by_cases he : (extract_from_card el).heading = []
        · exact Or.inl he
        · exact Or.inr (h1a he)
    · simp at h

/-- Witness for `coarse_candidates_heading_policy` at a concrete candidate
list containing the heading-less card. -/
theorem coarse_candidates_heading_policy_witness :
    ((({ extract_from_card cardNoHeading with role_type := str "video_editor" } : Row).heading
        = [] ∨
      validate_heading_for_role
        ({ extract_from_card cardNoHeading with role_type := str "video_editor" } : Row).heading
        (str "video_editor") = true) ∧
     ({ extract_from_card cardNoHeading with role_type := str "video_editor" } : Row).profile_url
        ≠ [] ∧
     ({ extract_from_card cardNoHeading with role_type := str "video_editor" } : Row).name
        ≠ []) :=
  coarse_candidates_heading_policy [] (str "video_editor") [cardNoHeading]
    { extract_from_card cardNoHeading with role_type := str "video_editor" } (by decide)

/-- C4 (amended): `validate_email e = true` only if the trimmed, lowercased
`e` *begins* with a substring matching the `local@domain.tld` shape (the
regex is anchored at the start but not at the end), contains exactly one `@`,
and satisfies the length bounds: overall length in `[6, 254]`, non-empty
local part of at most 64 characters, non-empty dotted domain of at most 253
characters, final domain label of at least 2 characters. -/
theorem validate_email_start_anchored_checks (e : Str)
    (hv : validate_email e = true) :
    emailMatchStart (toLowerStr (pyStrip e)) = true ∧
    6 ≤ (toLowerStr (pyStrip e)).length ∧ (toLowerStr (pyStrip e)).length ≤ 254 ∧
    ∃ l d, splitOnChar '@' (toLowerStr (pyStrip e)) = [l, d] ∧
      l ≠ [] ∧ l.length ≤ 64 ∧ d ≠ [] ∧ d.length ≤ 253 ∧ hasCh d '.' = true ∧
      2 ≤ ((splitOnChar '.' d).getLastD []).length := by
  have hc : emailChecksNorm (toLowerStr (pyStrip e)) = true := by
    rw [validate_email] at hv
    split at hv
    · simp at hv
    · exact hv
  rw [emailChecksNorm] at hc
  split at hc
  · simp at hc
  next hm =>
    split at hc
    · simp at hc
    next hb =>
      split at hc
      · simp at hc
      next hlen =>
        push_neg at hlen
        split at hc
        next l d heq =>
          split at hc
          · simp at hc
          next hl =>
            push_neg at hl
            split at hc
            · simp at hc
            next hd2 =>
              push_neg at hd2
              refine ⟨by simpa using hm, hlen.1, hlen.2, l, d, heq, ?_, hl.1, ?_, hd2.1,
                ?_, by simpa using hc⟩
              · simpa using hl.2
              · simpa using hd2.2.1
              · simpa using hd2.2.2
        next => simp at hc

/-- Witness for `validate_email_start_anchored_checks` at a concrete accepted
email. -/
theorem validate_email_start_anchored_checks_witness :
    emailMatchStart (toLowerStr (pyStrip (str "jane@gmail.com"))) = true ∧
    6 ≤ (toLowerStr (pyStrip (str "jane@gmail.com"))).length ∧
    (toLowerStr (pyStrip (str "jane@gmail.com"))).length ≤ 254 ∧
    ∃ l d, splitOnChar '@' (toLowerStr (pyStrip (str "jane@gmail.com"))) = [l, d] ∧
      l ≠ [] ∧ l.length ≤ 64 ∧ d ≠ [] ∧ d.length ≤ 253 ∧ hasCh d '.' = true ∧
      2 ≤ ((splitOnChar '.' d).getLastD []).length :=
  validate_email_start_anchored_checks (str "jane@gmail.com") (by decide)

theorem scrapeGo_length_le (site : Str → Option (List Card))
    (detail : Str → Option DetailPage) (ugcSeen : List Str) (role_type : Str)
    (max_profiles : Int) (hm : 0 ≤ max_profiles) :
    ∀ (urls : List Str) (rows : List Row), (rows.length : Int) ≤ max_profiles →
      ((scrapeGo site detail ugcSeen role_type max_profiles urls rows).length : Int)
        ≤ max_profiles := by
  intro urls
  induction urls with
  | nil => intro rows h; exact h
  | cons u us ih =>
    intro rows h
    rw [scrapeGo]
    split
    · exact h
    next h1 =>
      split
      next h2 =>
        rw [pySliceTake, if_neg (by omega)]
        have h3 := List.length_take_le max_profiles.toNat
          (rows ++ parse_search_page ugcSeen detail role_type (site u))
        omega
      next h2 =>
        exact ih _ (by omega)

/-- C6: a category scrape never returns more rows than its `max_profiles`
budget — the page loop stops once the budget is reached and truncates an
overshooting page's results. -/
theorem scrape_category_budget (site : Str → Option (List Card))
    (detail : Str → Option DetailPage) (ugcSeen : List Str) (max_pages : Int)
    (base_url : Str) (role_type : Str) (max_profiles : Int) (hm : 0 ≤ max_profiles) :
    ((scrape_category site detail ugcSeen max_pages base_url role_type
        max_profiles).length : Int) ≤ max_profiles :=
  scrapeGo_length_le site detail ugcSeen role_type max_profiles hm
    (paginate_urls max_pages base_url) [] (by simpa using hm)

/-- Witness for `scrape_category_budget`: a single listing page yielding two
accepted rows against a budget of 1. -/
theorem scrape_category_budget_witness :
    (0 : Int) ≤ 1 ∧
    ((scrape_category siteDup detailDup [] 1 UGC_URL (str "ugc") 1).length : Int) ≤ 1 :=
  ⟨by decide, scrape_category_budget siteDup detailDup [] 1 UGC_URL (str "ugc") 1 (by decide)⟩

theorem fetch_nonempty_validated (bio : Str → Option Str) (h : Str)
    (hne : (fetch_instagram_email_selenium bio h).isEmpty = false) :
    validate_email (fetch_instagram_email_selenium bio h) = true := by
  by_cases h0 : h.isEmpty
  · rw [fetch_instagram_email_selenium, if_pos h0] at hne
    simp at hne
  · rw [fetch_instagram_email_selenium, if_neg h0] at hne ⊢
    split at hne
    next heq => simp at hne
    next src heq =>
      split at hne
      next m hes =>
        by_cases hval : validate_email m = true
        · rw [if_pos hval]
          exact hval
        · rw [if_neg hval] at hne
          simp at hne
      next hes => simp at hne

theorem enrich_log_eq (bio : Str → Option Str) (rows : List Row) :
    (enrich_with_instagram_emails bio rows).2 =
      (rows.filter (fun r => r.email.isEmpty && !r.instagram_handle.isEmpty)).map
        (fun r => r.instagram_handle) := by
  induction rows with
  | nil => rfl
  | cons r rest ih =>
    simp only [enrich_with_instagram_emails] at ih ⊢
    rw [List.flatMap_cons, List.filter_cons]
    have h2 : (enrichRow bio r).2 =
        if (r.email.isEmpty && !r.instagram_handle.isEmpty) = true
        then [r.instagram_handle] else [] := by
      rw [enrichRow]
      split <;> rfl
    rw [h2]
    by_cases hc : (r.email.isEmpty && !r.instagram_handle.isEmpty) = true
    · rw [if_pos hc, if_pos hc, List.map_cons, ih]
      simp
    · rw [if_neg hc, if_neg hc, List.nil_append, ih]

/-- C7: the enrichment pass queries the Instagram resolver exactly for the
rows lacking an email but holding a non-empty handle (in order); a row whose
email is already non-empty is left untouched and never queried; and when the
resolver produces a non-empty (hence validated) email, the row's email is set
to it. -/
theorem enrich_email_policy (bio : Str → Option Str) (rows : List Row) :
    (enrich_with_instagram_emails bio rows).2 =
      (rows.filter (fun r => r.email.isEmpty && !r.instagram_handle.isEmpty)).map
        (fun r => r.instagram_handle) ∧
    ∀ (k : Nat) (r : Row), rows[k]? = some r →
      (¬r.email = [] → (enrich_with_instagram_emails bio rows).1[k]? = some r) ∧
      (r.email = [] → ¬r.instagram_handle = [] →
        (fetch_instagram_email_selenium bio r.instagram_handle).isEmpty = false →
        (enrich_with_instagram_emails bio rows).1[k]? =
          some { r with email := fetch_instagram_email_selenium bio r.instagram_handle } ∧
        validate_email (fetch_instagram_email_selenium bio r.instagram_handle) = true) := by
  refine ⟨enrich_log_eq bio rows, ?_⟩
  intro k r hk
  have hmap : (enrich_with_instagram_emails bio rows).1[k]? = some ((enrichRow bio r).1) := by
    simp [enrich_with_instagram_emails, List.getElem?_map, hk]
  constructor
  · intro hne
    rw [hmap]
    have hr : (enrichRow bio r).1 = r := by
      rw [enrichRow, if_neg (by simp [hne])]
    rw [hr]
  · intro he hh hf
    refine ⟨?_, fetch_nonempty_validated bio r.instagram_handle hf⟩
    rw [hmap]
    have hr : (enrichRow bio r).1 =
        { r with email := fetch_instagram_email_selenium bio r.instagram_handle } := by
      rw [enrichRow, if_pos (by simp [he, hh])]
      simp only []
      rw [if_pos (by simp [hf])]
    rw [hr]

/-- Witness fixtures for the enrichment theorems. -/
def rowWithEmail : Row :=
  ⟨str "https://collabstr.com/eva", str "@eva", str "Eva", str "eva@already.com",
   str "UGC Creator", str "ugc", str "evagram"⟩

def rowNoEmail : Row :=
  ⟨str "https://collabstr.com/finn", str "@finn", str "Finn", [],
   str "UGC Creator", str "ugc", str "finngram"⟩

/-- Bio oracle: Finn's Instagram bio contains a valid contact email. -/
def bioW : Str → Option Str := fun h =>
  if h = str "finngram" then some (str "reach me at contact@finn.io") else none

/-- Witness for `enrich_email_policy` at a concrete row pair. -/
theorem enrich_email_policy_witness :
    (enrich_with_instagram_emails bioW [rowWithEmail, rowNoEmail]).1[1]? =
      some { rowNoEmail with
              email := fetch_instagram_email_selenium bioW rowNoEmail.instagram_handle } ∧
    validate_email (fetch_instagram_email_selenium bioW rowNoEmail.instagram_handle) = true :=
  ((enrich_email_policy bioW [rowWithEmail, rowNoEmail]).2 1 rowNoEmail (by decide)).2
    (by decide) (by decide) (by decide)

/-- C10: enrichment keeps the row list's length and order, changes no field
other than `email`, and changes `email` only for a row whose email was empty
and whose Instagram handle was non-empty before the pass. -/
theorem enrich_frame (bio : Str → Option Str) (rows : List Row) :
    (enrich_with_instagram_emails bio rows).1.length = rows.length ∧
    ∀ (k : Nat) (r : Row), rows[k]? = some r →
      ∃ r', (enrich_with_instagram_emails bio rows).1[k]? = some r' ∧
        r'.profile_url = r.profile_url ∧ r'.username = r.username ∧ r'.name = r.name ∧
        r'.heading = r.heading ∧ r'.role_type = r.role_type ∧
        r'.instagram_handle = r.instagram_handle ∧
        (¬r'.email = r.email → r.email = [] ∧ ¬r.instagram_handle = []) := by
  constructor
  · simp [enrich_with_instagram_emails]
  · intro k r hk
    refine ⟨(enrichRow bio r).1,
      by simp [enrich_with_instagram_emails, List.getElem?_map, hk], ?_⟩
    rw [enrichRow]
    by_cases hc : (r.email.isEmpty && !r.instagram_handle.isEmpty) = true
    · rw [if_pos hc]
      dsimp only
      split
      · exact ⟨rfl, rfl, rfl, rfl, rfl, rfl, fun _ => by simpa using hc⟩
      · exact ⟨rfl, rfl, rfl, rfl, rfl, rfl, fun hne => absurd rfl hne⟩
    · rw [if_neg hc]
      exact ⟨rfl, rfl, rfl, rfl, rfl, rfl, fun hne => absurd rfl hne⟩

/-- Witness for `enrich_frame` at a concrete row list. -/
theorem enrich_frame_witness :
    ∃ r', (enrich_with_instagram_emails bioW [rowWithEmail, rowNoEmail]).1[0]? = some r' ∧
      r'.profile_url = rowWithEmail.profile_url ∧ r'.username = rowWithEmail.username ∧
      r'.name = rowWithEmail.name ∧ r'.heading = rowWithEmail.heading ∧
      r'.role_type = rowWithEmail.role_type ∧
      r'.instagram_handle = rowWithEmail.instagram_handle ∧
      (¬r'.email = rowWithEmail.email →
        rowWithEmail.email = [] ∧ ¬rowWithEmail.instagram_handle = []) :=
  (enrich_frame bioW [rowWithEmail, rowNoEmail]).2 0 rowWithEmail (by decide)

theorem filter_map_eq_filterMap (p : Row → Bool) (f : Row → Str × Str × Str × Str)
    (l : List Row) :
    (l.filter p).map f = l.filterMap (fun r => if p r then some (f r) else none) := by
  induction l with
  | nil => rfl
  | cons a l ih =>
    rw [List.filter_cons, List.filterMap_cons]
    by_cases hp : p a = true
    · rw [if_pos hp, if_pos hp, List.map_cons, ih]
    · rw [if_neg hp, if_neg hp, ih]

/-- C9: `save_csv` writes one file per non-empty category; each file holds
exactly the post-enrichment rows whose email is non-empty, in their accepted
order, projected to `(name, email, profile_url, role_type)`; rows with an
empty email are excluded; an empty category gets no file. -/
theorem save_csv_export_policy (bio : Str → Option Str) (ugc video : List Row) :
    (¬ugc = [] → (save_csv bio ugc video).1 =
      some ((enrich_with_instagram_emails bio ugc).1.filterMap
        (fun r => if !r.email.isEmpty then some (r.name, r.email, r.profile_url, r.role_type)
                  else none))) ∧
    (¬video = [] → (save_csv bio ugc video).2 =
      some ((enrich_with_instagram_emails bio video).1.filterMap
        (fun r => if !r.email.isEmpty then some (r.name, r.email, r.profile_url, r.role_type)
                  else none))) ∧
    (ugc = [] → (save_csv bio ugc video).1 = none) ∧
    (video = [] → (save_csv bio ugc video).2 = none) := by
  have hexp : ∀ rows : List Row, exportRows rows = rows.filterMap
      (fun r => if !r.email.isEmpty then some (r.name, r.email, r.profile_url, r.role_type)
                else none) := by
    intro rows
    rw [exportRows]
    exact filter_map_eq_filterMap _ _ rows
  refine ⟨?_, ?_, ?_, ?_⟩
  · intro hu
    have hu2 : ugc.isEmpty = false := by
      cases ugc
      · exact absurd rfl hu
      · rfl
    rw [save_csv, if_neg (by simp [hu2])]
    simp [hu2, hexp]
  · intro hv
    have hv2 : video.isEmpty = false := by
      cases video
      · exact absurd rfl hv
      · rfl
    rw [save_csv, if_neg (by simp [hv2])]
    simp [hv2, hexp]
  · intro hu
    subst hu
    by_cases hv : video.isEmpty = true
    · rw [save_csv, if_pos (by simp [hv])]
    · rw [save_csv, if_neg (by simp [hv])]
      simp
  · intro hv
    subst hv
    by_cases hu : ugc.isEmpty = true
    · rw [save_csv, if_pos (by simp [hu])]
    · rw [save_csv, if_neg (by simp [hu])]
      simp

/-- Witness for `save_csv_export_policy` at a concrete run state: one `ugc`
row with an email, one without, an empty `video` category. -/
theorem save_csv_export_policy_witness :
    (save_csv bioW [rowWithEmail, rowNoEmail] []).1 =
      some ((enrich_with_instagram_emails bioW [rowWithEmail, rowNoEmail]).1.filterMap
        (fun r => if !r.email.isEmpty then some (r.name, r.email, r.profile_url, r.role_type)
                  else none)) ∧
    (save_csv bioW [rowWithEmail, rowNoEmail] []).2 = none :=
  ⟨(save_csv_export_policy bioW [rowWithEmail, rowNoEmail] []).1 (by decide),
   (save_csv_export_policy bioW [rowWithEmail, rowNoEmail] []).2.2.2 rfl⟩

theorem intRange_length (a b : Int) : (intRange a b).length = (b - a).toNat := by
  rw [intRange, List.length_map, List.length_range]

theorem intRange_getElem (a b : Int) (k : Nat) (hk : k < (b - a).toNat) :
    (intRange a b)[k]? = some (a + k) := by
  rw [intRange, List.getElem?_map]
  simp [List.getElem?_range, hk]

theorem dictFind_eq_none_of_not_mem (q : List (Str × List Str)) (k : Str)
    (h : k ∉ q.map Prod.fst) : dictFind q k = none := by
  induction q with
  | nil => rfl
  | cons a rest ih =>
    obtain ⟨k0, vs⟩ := a
    rw [dictFind]
    have hne : ¬k0 = k := by
      intro he
      exact h (by simp [he])
    rw [if_neg hne]
    exact ih (fun hm => h (by simp [hm]))

theorem mapReplace_id (q : List (Str × List Str)) (k : Str) (v : List Str)
    (h : dictFind q k = none) :
    q.map (fun kv => if kv.1 = k then (k, v) else kv) = q := by
  induction q with
  | nil => rfl
  | cons a rest ih =>
    obtain ⟨k0, vs⟩ := a
    rw [dictFind] at h
    by_cases hk : k0 = k
    · rw [if_pos hk] at h
      exact absurd h (by simp)
    · rw [if_neg hk] at h
      simp only [List.map_cons, if_neg hk, ih h]

theorem dictSet_eq_mapReplace (q : List (Str × List Str)) (k : Str) (v : List Str)
    (hnd : (q.map Prod.fst).Nodup) (hf : (dictFind q k).isSome) :
    dictSet q k v = q.map (fun kv => if kv.1 = k then (k, v) else kv) := by
  induction q with
  | nil => simp [dictFind] at hf
  | cons a rest ih =>
    obtain ⟨k0, vs⟩ := a
    rw [dictSet]
    rw [List.map_cons] at hnd
    by_cases hk : k0 = k
    · rw [if_pos hk]
      subst hk
      have hnotmem : k0 ∉ rest.map Prod.fst := (List.nodup_cons.mp hnd).1
      rw [List.map_cons, mapReplace_id rest k0 v (dictFind_eq_none_of_not_mem rest k0 hnotmem)]
      simp
    · rw [if_neg hk]
      have hf2 : (dictFind rest k).isSome := by
        rw [dictFind, if_neg hk] at hf
        exact hf
      have hnd2 : (rest.map Prod.fst).Nodup := (List.nodup_cons.mp hnd).2
      rw [List.map_cons]
      rw [ih hnd2 hf2]
      simp [hk]

theorem dictAppend_keys (d : List (Str × List Str)) (k : Str) (v : Str) :
    (dictAppend d k v).map Prod.fst =
      if k ∈ d.map Prod.fst then d.map Prod.fst else d.map Prod.fst ++ [k] := by
  induction d with
  | nil => simp [dictAppend]
  | cons a rest ih =>
    obtain ⟨k0, vs⟩ := a
    rw [dictAppend]
    by_cases hk : k0 = k
    · rw [if_pos hk]
      subst hk
      simp
    · rw [if_neg hk, List.map_cons, List.map_cons, ih]
      by_cases hmem : k ∈ rest.map Prod.fst
      · rw [if_pos hmem, if_pos (by simp [hmem])]
      · rw [if_neg hmem, if_neg ?_, List.cons_append]
        simp only [List.mem_cons]
        rintro (h1 | h2)
        · exact hk h1.symm
        · exact hmem h2

theorem parse_qs_keys_nodup (qs : Str) : ((parse_qs qs).map Prod.fst).Nodup := by
  rw [parse_qs]
  suffices hgen : ∀ (pairs : List (Str × Str)) (d : List (Str × List Str)),
      (d.map Prod.fst).Nodup →
      ((pairs.foldl (fun d kv => dictAppend d kv.1 kv.2) d).map Prod.fst).Nodup by
    exact hgen (parse_qsl qs) [] (by simp)
  intro pairs
  induction pairs with
  | nil => intro d hd; simpa using hd
  | cons p ps ih =>
    intro d hd
    rw [List.foldl_cons]
    apply ih
    rw [dictAppend_keys]
    by_cases hmem : p.1 ∈ d.map Prod.fst
    · rw [if_pos hmem]
      exact hd
    · rw [if_neg hmem, List.nodup_append]
      exact ⟨hd, List.nodup_singleton _, by simpa using hmem⟩

/-- C5 counterexample: the seed `https://x/y?a=&page=1` contains a blank-valued
parameter `a`; the second planned URL drops it (parse_qs with default
arguments skips blank values), so the other query parameters are *not* all
preserved. -/
theorem paginate_urls_drops_blank_param :
    paginate_urls 2 (str "https://x/y?a=&page=1") =
      [str "https://x/y?a=&page=1", str "https://x/y?page=2"] ∧
    paginate_urls 2 (str "https://x/y?a=&page=1") ≠
      [str "https://x/y?a=&page=1", str "https://x/y?a=&page=2"] :=
  ⟨by decide, by decide⟩

set_option maxHeartbeats 1000000 in
/-- C5 (amended): for page count `n ≥ 1` the plan starts with the unmodified
seed.  When the parsed query has a `page` parameter whose first value parses
as integer `start`, the plan continues with `n − 1` URLs re-serialised as
`scheme://netloc path ? query` where the query is rebuilt from the parsed
parameters (percent-escapes and `+` decoded, parameters with blank values or
without `=` dropped, first-appearance key order with repeated values grouped,
fragment dropped) and `page` takes the values `start+1 … start+n−1`.
Otherwise the plan continues with the seed plus an appended `pg` parameter
taking values `2 … n`, joined with `&` when the seed's query string is
non-empty and with `?` otherwise. -/
theorem paginate_urls_plan (max_pages : Int) (seed : Str) (h1 : 1 ≤ max_pages) :
    (paginate_urls max_pages seed).headD [] = seed ∧
    (∀ vals start, dictFind (parse_qs (urlparse seed).query) (str "page") = some vals →
      pyIntOpt (vals.headD []) = some start →
      (paginate_urls max_pages seed).length = max_pages.toNat ∧
      ∀ k : Nat, (k : Int) < max_pages - 1 →
        (paginate_urls max_pages seed)[k + 1]? =
          some ((urlparse seed).scheme ++ str "://" ++ (urlparse seed).netloc ++
            (urlparse seed).path ++ '?' :: joinStr (str "&")
              (((parse_qs (urlparse seed).query).map
                  (fun kv => if kv.1 = str "page"
                    then (str "page", [intToStr (start + 1 + (k : Int))]) else kv)).flatMap
                (fun kv => kv.2.map (fun v => kv.1 ++ '=' :: v))))) ∧
    (dictFind (parse_qs (urlparse seed).query) (str "page") = none →
      (paginate_urls max_pages seed).length = max_pages.toNat ∧
      ∀ k : Nat, (k : Int) < max_pages - 1 →
        (paginate_urls max_pages seed)[k + 1]? =
          some (seed ++ (if (urlparse seed).query.isEmpty then ['?'] else ['&']) ++
            str "pg=" ++ intToStr (2 + (k : Int)))) := by
  refine ⟨?_, ?_, ?_⟩
  · rcases hf : dictFind (parse_qs (urlparse seed).query) (str "page") with _ | vals
    · simp [paginate_urls, hf]
    · simp [paginate_urls, hf]
  · intro vals start hfind hint
    constructor
    · simp only [paginate_urls, hfind, hint]
      rw [List.length_cons, List.length_map, intRange_length]
      omega
    · intro k hk
      simp only [paginate_urls, hfind, hint]
      rw [List.getElem?_cons_succ, List.getElem?_map,
        intRange_getElem (start + 1) (start + max_pages) k (by omega)]
      show some (rebuild_query (urlparse seed) (str "page") (start + 1 + (k : Int))) = _
      congr 1
      rw [rebuild_query]
      rw [dictSet_eq_mapReplace (parse_qs (urlparse seed).query) (str "page")
        [intToStr (start + 1 + (k : Int))] (parse_qs_keys_nodup _) (by rw [hfind]; rfl)]
  · intro hfind
    constructor
    · simp only [paginate_urls, hfind]
      rw [List.length_cons, List.length_map, intRange_length]
      omega
    · intro k hk
      simp only [paginate_urls, hfind]
      rw [List.getElem?_cons_succ, List.getElem?_map,
        intRange_getElem 2 (max_pages + 1) k (by omega)]
      rfl

/-- Witness for `paginate_urls_plan` at the spec's own example seed. -/
theorem paginate_urls_plan_witness :
    (paginate_urls 3 (str "https://x/y?page=2")).headD [] = str "https://x/y?page=2" ∧
    (paginate_urls 3 (str "https://x/y?page=2")).length = (3 : Int).toNat :=
  ⟨(paginate_urls_plan 3 (str "https://x/y?page=2") (by decide)).1,
   ((paginate_urls_plan 3 (str "https://x/y?page=2") (by decide)).2.1 [str "2"] 2 (by decide)
     (by decide)).1⟩
